import Mathlib

/- Verification of the master-data lookup, loader and output-assembly core of
   the data_exc repository (src/invoice_Agent.py and src/app.py).

   Shallow embedding conventions:
   - a pandas DataFrame is a Table: a list of column headers plus a list of
     rows, each row a list of cell values in column order;
   - the dictionary of loaded master data is an association list
     List (String × Table) in insertion order (Python dicts preserve it);
   - Python str.strip and str.lower are modelled on the character list;
   - pandas Series.str.contains(v, case=False, na=False) applied after
     astype(str) is modelled as case-insensitive substring containment;
   - the strings returned by the tool functions are modelled by the
     LookupOutcome inductive together with render, which rebuilds the exact
     message text of the f-strings in invoice_Agent.py;
   - the external parsing boundaries (pd.ExcelFile on raw bytes, json.loads
     on the record text) deliver their outcome as a value: ParseResult for
     spreadsheet sources, Except for the JSON record. -/

/-- Python str.strip on a character list: drop whitespace at both ends. -/
def pyStripData (l : List Char) : List Char :=
  ((l.dropWhile Char.isWhitespace).reverse.dropWhile Char.isWhitespace).reverse

/-- Python str.strip, as used on column arguments and headers. -/
def pyStrip (s : String) : String := String.mk (pyStripData s.data)

/-- Python str.lower (ASCII-adequate model), the case folding done by
    str.contains(case=False). -/
def pyLower (s : String) : String := String.mk (s.data.map Char.toLower)

/-- pandas Series.str.contains(needle, case=False) on a cell cast to str,
    for needles free of regex metacharacters: on those, the regex search the
    source performs (regex=True is the pandas default) degenerates to
    case-insensitive substring containment. The general regex behaviour is
    the external boundary ReCompiled below, and lookup_re_agrees_on_neutral
    proves the agreement on metacharacter-free needles. -/
def pyContainsCI (hay needle : String) : Bool :=
  decide ((pyLower needle).data <:+: (pyLower hay).data)

/-- a cell of a loaded sheet: text, integral number, or missing (NaN). -/
inductive Value where
  | text (s : String)
  | int (n : Int)
  | empty
deriving DecidableEq

/-- Python str(cell), also astype(str): missing values print as nan. -/
def Value.toText : Value → String
  | .text s => s
  | .int n => toString n
  | .empty => "nan"

/-- a pandas DataFrame: column header list plus rows of cells in column order. -/
structure Table where
  cols : List String
  rows : List (List Value)
deriving DecidableEq

/-- value of column c in a row (row indexing by column label). -/
def cellOf (cols : List String) (row : List Value) (c : String) : Value :=
  (row[cols.findIdx (fun x => x == c)]?).getD Value.empty

/-- the row predicate of the source's filter:
    df[lookup_column].astype(str).str.contains(lookup_value, case=False, na=False). -/
def rowMatches (cols : List String) (lookupColumn lookupValue : String)
    (row : List Value) : Bool :=
  pyContainsCI (Value.toText (cellOf cols row lookupColumn)) lookupValue

/-- outcome of the lookup tool; each constructor carries exactly the data the
    source interpolates into the string it returns (see render). -/
inductive LookupOutcome where
  | found (v : String)
  | keyNotFound (key : String) (availableKeys : List String)
  | columnNotFound (col : String) (key : String) (availableCols : List String)
  | valueNotFound (value : String) (key : String) (col : String)
deriving DecidableEq

/-- a single-quote character, written by code point to keep sources plain. -/
def squote : String := String.mk [Char.ofNat 39]

/-- a string surrounded by single quotes, as Python f-strings print it. -/
def pyQuoted (s : String) : String := squote ++ s ++ squote

/-- comma-separated single-quoted items, the interior of Python list repr. -/
def pyJoin : List String → String
  | [] => ""
  | [x] => pyQuoted x
  | x :: y :: xs => pyQuoted x ++ ", " ++ pyJoin (y :: xs)

/-- Python repr of a list of strings, as the f-strings print list(...). -/
def pyListRepr (xs : List String) : String := "[" ++ pyJoin xs ++ "]"

/-- the exact strings returned by _lookup_master_data in invoice_Agent.py. -/
def render : LookupOutcome → String
  | .found v => v
  | .keyNotFound k avail =>
      "Master data key " ++ pyQuoted k ++ " not found. Available keys: " ++ pyListRepr avail
  | .columnNotFound c k avail =>
      "Column " ++ pyQuoted c ++ " not found in " ++ k ++ ". Available: " ++ pyListRepr avail
  | .valueNotFound v k c =>
      "Value " ++ pyQuoted v ++ " not found in " ++ k ++ " column " ++ pyQuoted c

/-- invoice_Agent.py _lookup_master_data: key check first, then strip the two
    column arguments, check lookup column then return column, then take the
    first row whose lookup-column text contains the value case-insensitively
    and return that row's return-column value as text. -/
def _lookup_master_data (fileKey lookupColumn lookupValue returnColumn : String)
    (masterDataDfs : List (String × Table)) : LookupOutcome :=
  match List.lookup fileKey masterDataDfs with
  | none => .keyNotFound fileKey (masterDataDfs.map Prod.fst)
  | some df =>
    let lc := pyStrip lookupColumn
    let rc := pyStrip returnColumn
    if lc ∈ df.cols then
      if rc ∈ df.cols then
        match df.rows.find? (rowMatches df.cols lc lookupValue) with
        | some row => .found (Value.toText (cellOf df.cols row rc))
        | none => .valueNotFound lookupValue fileKey lc
      else .columnNotFound rc fileKey df.cols
    else .columnNotFound lc fileKey df.cols

/-- df.columns = df.columns.str.strip(): strip every column header. -/
def stripCols (t : Table) : Table := ⟨t.cols.map pyStrip, t.rows⟩

/-- replacement of the stored table object for a key: the collection-level
    effect of mutating in place the DataFrame fetched from the dict. -/
def updateFirst (md : List (String × Table)) (k : String) (t : Table) :
    List (String × Table) :=
  match md with
  | [] => []
  | p :: rest => if k == p.1 then (p.1, t) :: rest else p :: updateFirst rest k t

/-- app.py lookup_master_data: same lookup logic, but it re-strips the
    resolved DataFrame's column headers in place before the column checks,
    which mutates the stored table; the result is the outcome together with
    the collection as it stands after the call. -/
def lookup_master_data (fileName lookupColumn lookupValue returnColumn : String)
    (masterDataFiles : List (String × Table)) :
    LookupOutcome × List (String × Table) :=
  match List.lookup fileName masterDataFiles with
  | none => (.keyNotFound fileName (masterDataFiles.map Prod.fst), masterDataFiles)
  | some df0 =>
    let df := stripCols df0
    let files := updateFirst masterDataFiles fileName df
    let lc := pyStrip lookupColumn
    let rc := pyStrip returnColumn
    if lc ∈ df.cols then
      if rc ∈ df.cols then
        match df.rows.find? (rowMatches df.cols lc lookupValue) with
        | some row => (.found (Value.toText (cellOf df.cols row rc)), files)
        | none => (.valueNotFound lookupValue fileName lc, files)
      else (.columnNotFound rc fileName df.cols, files)
    else (.columnNotFound lc fileName df.cols, files)

/-- the characters the Python re module treats specially (re documentation);
    code points 123, 125 and 92 are the two braces and the backslash. -/
def reMeta (c : Char) : Bool :=
  c == '.' || c == '^' || c == '$' || c == '*' || c == '+' || c == '?' ||
  c == Char.ofNat 123 || c == Char.ofNat 125 || c == '[' || c == ']' ||
  c == Char.ofNat 92 || c == '|' || c == '(' || c == ')'

/-- a lookup value free of regex metacharacters: on such values the regex
    reading of str.contains and the literal substring reading coincide. -/
def pyRegexNeutral (s : String) : Bool := !(s.data.any reMeta)

/-- re.search(pattern, text, re.IGNORECASE) at the current position, for
    patterns made of literal characters and the dot wildcard: literals
    compare case-folded, the dot matches any character except a newline. -/
def dotLitMatchHere : List Char → List Char → Bool
  | [], _ => true
  | _ :: _, [] => false
  | p :: ps, c :: cs =>
      (if p = '.' then decide (c ≠ '\n') else p.toLower == c.toLower) &&
        dotLitMatchHere ps cs

/-- re.search over the whole text: the pattern matches at some position. -/
def dotLitSearch (pat : List Char) : List Char → Bool
  | [] => dotLitMatchHere pat []
  | c :: cs => dotLitMatchHere pat (c :: cs) || dotLitSearch pat cs

/-- the external re engine boundary of str.contains(regex=True): compiling
    the lookup value either raises re.error (an invalid pattern) or yields a
    total search predicate over cell texts. -/
inductive ReCompiled where
  | err (msg : String)
  | searcher (f : String → Bool)

/-- outcome of the lookup with the regex boundary explicit: a regular
    outcome, or the except-clause result produced when the engine raises
    re.error on the lookup value. -/
inductive LookupOutcomeRe where
  | res (o : LookupOutcome)
  | caughtError (key : String) (msg : String)
deriving DecidableEq

/-- invoice_Agent.py _lookup_master_data with the regular-expression engine
    of pandas str.contains(regex=True) passed explicitly as the external
    boundary: after the key and column checks (which never reach
    str.contains), compiling the lookup value either raises re.error —
    caught by the function's except clause into the error string — or yields
    the search predicate applied to each row's lookup-column text. On
    metacharacter-free lookup values any engine implementing Python re
    searches exactly like pyContainsCI, and this function then coincides
    with _lookup_master_data (lookup_re_agrees_on_neutral below). -/
def _lookup_master_data_re (engine : String → ReCompiled)
    (fileKey lookupColumn lookupValue returnColumn : String)
    (masterDataDfs : List (String × Table)) : LookupOutcomeRe :=
  match List.lookup fileKey masterDataDfs with
  | none => .res (.keyNotFound fileKey (masterDataDfs.map Prod.fst))
  | some df =>
    let lc := pyStrip lookupColumn
    let rc := pyStrip returnColumn
    if lc ∈ df.cols then
      if rc ∈ df.cols then
        match engine lookupValue with
        | .err m => .caughtError fileKey m
        | .searcher f =>
          match df.rows.find? (fun row => f (Value.toText (cellOf df.cols row lc))) with
          | some row => .res (.found (Value.toText (cellOf df.cols row rc)))
          | none => .res (.valueNotFound lookupValue fileKey lc)
      else .res (.columnNotFound rc fileKey df.cols)
    else .res (.columnNotFound lc fileKey df.cols)

/-- the f-string of the except clause, for the caught-error outcome. -/
def renderRe : LookupOutcomeRe → String
  | .res o => render o
  | .caughtError k m => "Error during lookup in " ++ pyQuoted k ++ ": " ++ m

/-- the property of Python re the amended claims rely on: a pattern free of
    metacharacters is a valid regex matching exactly its literal occurrences
    case-insensitively, so searching with it is pyContainsCI. -/
def EngineNeutralOK (engine : String → ReCompiled) : Prop :=
  ∀ p, pyRegexNeutral p = true →
    ∃ f, engine p = ReCompiled.searcher f ∧ ∀ text, f text = pyContainsCI text p

/-- the re engine on the pattern fragment the theorems below exercise: a
    pattern of literal characters and dot wildcards compiles to the
    IGNORECASE dot/literal searcher, and the lone open parenthesis is an
    invalid pattern raising re.error with the message Python prints — both
    the documented behaviour of the re module on those inputs. Patterns
    using other regex features are outside this fragment, and no theorem
    consults the engine on them. -/
def reEngineFragment (pat : String) : ReCompiled :=
  if pat = "(" then
    ReCompiled.err "missing ), unterminated subpattern at position 0"
  else
    ReCompiled.searcher (fun text => dotLitSearch pat.data text.data)

/-- outcome of pd.ExcelFile on one source's raw bytes: the named sheets in
    workbook order, or the exception text on a parse failure. -/
inductive ParseResult where
  | ok (sheets : List (String × Table))
  | err (msg : String)
deriving DecidableEq

/-- tables one source contributes: nothing on a parse failure; the source
    name alone when it has exactly one sheet; name_sheet per sheet otherwise.
    Headers are stripped before storing in every case. -/
def sourceTables : String × ParseResult → List (String × Table)
  | (_, .err _) => []
  | (name, .ok [(_, t)]) => [(name, stripCols t)]
  | (name, .ok sheets) => sheets.map (fun p => (name ++ "_" ++ p.1, stripCols p.2))

/-- invoice_Agent.py _load_master_data_from_bytes, per source in input order
    (pd.ExcelFile on the raw bytes is the external boundary: each source
    arrives as its parse outcome). -/
def _load_master_data_from_bytes : List (String × ParseResult) → List (String × Table)
  | [] => []
  | s :: rest => sourceTables s ++ _load_master_data_from_bytes rest

/-- the per-source failure reports emitted by the loader: source name and
    exception text, in input order. -/
def load_errors : List (String × ParseResult) → List (String × String)
  | [] => []
  | (_, .ok _) :: rest => load_errors rest
  | (name, .err e) :: rest => (name, e) :: load_errors rest

/-- whether a source parsed. -/
def isOkSource : String × ParseResult → Bool
  | (_, .ok _) => true
  | (_, .err _) => false

/-- number of parseable sources with exactly one sheet. -/
def numSingleSheet : List (String × ParseResult) → Nat
  | [] => 0
  | (_, .ok sheets) :: rest =>
      (if sheets.length = 1 then 1 else 0) + numSingleSheet rest
  | (_, .err _) :: rest => numSingleSheet rest

/-- total sheet count over parseable sources that do not have exactly one
    sheet. -/
def numMultiSheets : List (String × ParseResult) → Nat
  | [] => 0
  | (_, .ok sheets) :: rest =>
      (if sheets.length = 1 then 0 else sheets.length) + numMultiSheets rest
  | (_, .err _) :: rest => numMultiSheets rest

/-- a character forcing CSV quoting under minimal-quoting rules. -/
def csvNeedsQuote (c : Char) : Bool := c == ',' || c == '"' || c == '\n' || c == '\r'

/-- double every double-quote character of a quoted field's interior. -/
def escQuotes : List Char → List Char
  | [] => []
  | c :: rest => if c = '"' then '"' :: '"' :: escQuotes rest else c :: escQuotes rest

/-- one CSV field with minimal quoting (csv.QUOTE_MINIMAL, pandas default). -/
def csvFieldData (s : List Char) : List Char :=
  if s.any csvNeedsQuote then '"' :: (escQuotes s ++ ['"']) else s

/-- one CSV line: fields separated by commas. -/
def csvLineData : List (List Char) → List Char
  | [] => []
  | [c] => csvFieldData c
  | c :: d :: cs => csvFieldData c ++ ',' :: csvLineData (d :: cs)

/-- pandas DataFrame([data]).to_csv(index=False): one header line with the
    keys in mapping order, one data line with the values, a newline after
    each line. -/
def toCsvNoIndex (record : List (String × String)) : String :=
  String.mk (csvLineData (record.map (fun p => p.1.data)) ++
    '\n' :: (csvLineData (record.map (fun p => p.2.data)) ++ ['\n']))

/-- invoice_Agent.py _generate_output_csv, after the external json.loads
    boundary: ok carries the decoded flat mapping in key order, error the
    exception text. Returns (message, csv text, decoded record). -/
def _generate_output_csv (parsed : Except String (List (String × String))) :
    String × Option String × Option (List (String × String)) :=
  match parsed with
  | .ok data => ("Successfully generated CSV data", some (toCsvNoIndex data), some data)
  | .error e => ("Error generating CSV: " ++ e, none, none)

/-- interior of a quoted CSV field: consume up to the closing quote,
    translating doubled quotes; also returns the remainder after it. -/
def parseQuoted : List Char → Option (List Char × List Char)
  | [] => none
  | c :: rest =>
    if c = '"' then
      match rest with
      | [] => some ([], [])
      | c2 :: rest2 =>
        if c2 = '"' then
          match parseQuoted rest2 with
          | some (cell, rem) => some ('"' :: cell, rem)
          | none => none
        else some ([], rest)
    else
      match parseQuoted rest with
      | some (cell, rem) => some (c :: cell, rem)
      | none => none

/-- a character that does not end an unquoted CSV field. -/
def notCellEnd (c : Char) : Bool := !(c == ',' || c == '\n')

/-- one CSV field starting here, quoted or bare; returns it with the rest. -/
def parseCellAt : List Char → Option (List Char × List Char)
  | [] => some ([], [])
  | c :: rest =>
    if c = '"' then parseQuoted rest
    else some ((c :: rest).takeWhile notCellEnd, (c :: rest).dropWhile notCellEnd)

/-- one CSV line: comma-separated fields up to a newline or the end. -/
def parseLineFuel : Nat → List Char → Option (List (List Char) × List Char)
  | 0, _ => none
  | fuel + 1, l =>
    match parseCellAt l with
    | none => none
    | some (cell, rest) =>
      match rest with
      | [] => some ([cell], [])
      | c :: r =>
        if c = '\n' then some ([cell], r)
        else if c = ',' then
          match parseLineFuel fuel r with
          | some (cells, rem) => some (cell :: cells, rem)
          | none => none
        else none

/-- parse a two-line CSV artifact (header and data row) back to the record. -/
def parseCsvRecord (s : String) : Option (List (String × String)) :=
  match parseLineFuel (s.length + 1) s.data with
  | none => none
  | some (headerCells, rest1) =>
    match parseLineFuel (s.length + 1) rest1 with
    | none => none
    | some (valueCells, rest2) =>
      if rest2 = [] ∧ headerCells.length = valueCells.length then
        some ((headerCells.map String.mk).zip (valueCells.map String.mk))
      else none

/- ------------------------------------------------------------------ -/
/- Helper lemmas                                                      -/
/- ------------------------------------------------------------------ -/

lemma isInfix_extend {s t : List Char} (a b : List Char) (h : s <:+: t) :
    s <:+: a ++ t ++ b := by
  obtain ⟨x, y, hxy⟩ := h
  exact ⟨a ++ x, y ++ b, by rw [← hxy]; simp⟩

lemma lookup_some_mem {β : Type} {k : String} {l : List (String × β)} {v : β}
    (h : List.lookup k l = some v) : (k, v) ∈ l := by
  induction l with
  | nil => simp [List.lookup] at h
  | cons p rest ih =>
    rcases p with ⟨k2, b⟩
    rw [List.lookup] at h
    split at h
    · next heq =>
      have hk : k = k2 := by simpa using heq
      cases h
      subst hk
      exact List.mem_cons_self _ _
    · exact List.mem_cons_of_mem _ (ih h)

lemma lookup_eq_of_mem_nodup {β : Type} {k : String} {v : β} {l : List (String × β)}
    (hm : (k, v) ∈ l) (hn : (l.map Prod.fst).Nodup) : List.lookup k l = some v := by
  induction l with
  | nil => simp at hm
  | cons p rest ih =>
    rcases p with ⟨k2, b⟩
    rcases List.mem_cons.mp hm with heq | hmem
    · cases heq
      simp [List.lookup]
    · have hn2 := hn
      rw [List.map_cons, List.nodup_cons] at hn2
      have hk : k ≠ k2 := by
        intro hkk
        apply hn2.1
        rw [← hkk]
        exact List.mem_map.mpr ⟨(k, v), hmem, rfl⟩
      rw [List.lookup]
      have hbeq : (k == k2) = false := by simp [hk]
      rw [hbeq]
      exact ih hmem hn2.2

lemma find?_eq_get_of_first {α : Type} (p : α → Bool) (l : List α) (i : Nat)
    (hi : i < l.length) (hp : p (l.get ⟨i, hi⟩) = true)
    (hb : ∀ j (hj : j < l.length), j < i → p (l.get ⟨j, hj⟩) = false) :
    l.find? p = some (l.get ⟨i, hi⟩) := by
  induction l generalizing i with
  | nil => exact absurd hi (by simp)
  | cons a tl ih =>
    cases i with
    | zero =>
      simp only [List.get] at hp
      rw [List.find?_cons, hp]
      simp [List.get]
    | succ n =>
      have ha : p a = false := hb 0 (by simp) (Nat.succ_pos n)
      rw [List.find?_cons, ha]
      have hi2 : n < tl.length := Nat.lt_of_succ_lt_succ (by simpa using hi)
      have hres := ih n hi2 (by simpa using hp)
        (fun j hj hjn => by
          simpa using hb (j + 1) (by simpa using Nat.succ_lt_succ hj) (Nat.succ_lt_succ hjn))
      simpa using hres

lemma mem_pyJoin_substr {s : String} {xs : List String} (h : s ∈ xs) :
    s.data <:+: (pyJoin xs).data := by
  induction xs with
  | nil => simp at h
  | cons x tl ih =>
    rcases List.mem_cons.mp h with rfl | hmem2
    · cases tl with
      | nil => exact ⟨squote.data, squote.data, by simp [pyJoin, pyQuoted]⟩
      | cons y tl2 =>
        exact ⟨squote.data, (squote ++ ", " ++ pyJoin (y :: tl2)).data,
          by simp [pyJoin, pyQuoted]⟩
    · cases tl with
      | nil => simp at hmem2
      | cons y tl2 =>
        obtain ⟨a, b, hab⟩ := ih hmem2
        exact ⟨(pyQuoted x ++ ", ").data ++ a, b, by simp [pyJoin, ← hab]⟩

lemma mem_pyListRepr_substr {s : String} {xs : List String} (h : s ∈ xs) :
    s.data <:+: (pyListRepr xs).data := by
  have h2 := isInfix_extend ("[".data) ("]".data) (mem_pyJoin_substr h)
  simpa [pyListRepr] using h2

lemma render_keyNotFound_names (k : String) (avail : List String) :
    k.data <:+: (render (.keyNotFound k avail)).data ∧
    ∀ k2 ∈ avail, k2.data <:+: (render (.keyNotFound k avail)).data := by
  constructor
  · exact ⟨("Master data key " ++ squote).data,
      (squote ++ " not found. Available keys: " ++ pyListRepr avail).data,
      by simp [render, pyQuoted]⟩
  · intro k2 hk2
    have h2 := isInfix_extend
      ("Master data key " ++ pyQuoted k ++ " not found. Available keys: ").data
      [] (mem_pyListRepr_substr hk2)
    simpa [render] using h2

lemma render_columnNotFound_names (c k : String) (avail : List String) :
    c.data <:+: (render (.columnNotFound c k avail)).data ∧
    ∀ c2 ∈ avail, c2.data <:+: (render (.columnNotFound c k avail)).data := by
  constructor
  · exact ⟨("Column " ++ squote).data,
      (squote ++ " not found in " ++ k ++ ". Available: " ++ pyListRepr avail).data,
      by simp [render, pyQuoted]⟩
  · intro c2 hc2
    have h2 := isInfix_extend
      ("Column " ++ pyQuoted c ++ " not found in " ++ k ++ ". Available: ").data
      [] (mem_pyListRepr_substr hc2)
    simpa [render] using h2

lemma render_valueNotFound_contains_value (v k c : String) :
    v.data <:+: (render (.valueNotFound v k c)).data :=
  ⟨("Value " ++ squote).data,
    (squote ++ " not found in " ++ k ++ " column " ++ pyQuoted c).data,
    by simp [render, pyQuoted]⟩

lemma render_valueNotFound_ne_found_empty (v k c : String) :
    render (.valueNotFound v k c) ≠ render (.found "") := by
  intro h
  have hl := congrArg String.length h
  simp [render, pyQuoted, String.length_append] at hl
  have h7 : (0 : Nat) < "Value ".length := by decide
  omega

/- ------------------------------------------------------------------ -/
/- Fixtures for witnesses                                             -/
/- ------------------------------------------------------------------ -/

/-- a small vendors table with the spec's example row 2. -/
def exVendors : Table :=
  ⟨["Name", "Code"],
    [[Value.text "Foo", Value.text "V1"], [Value.text "ACME Corp", Value.text "V100"]]⟩

/-- a one-file master data collection. -/
def exMd : List (String × Table) := [("vendors.xlsx", exVendors)]

/- ------------------------------------------------------------------ -/
/- Claim theorems                                                     -/
/- ------------------------------------------------------------------ -/

/-- core of the lookup-miss behaviour on the substring reading: when the
    table key resolves and both (trimmed) columns exist but no row's
    lookup-column text contains the value case-insensitively, the lookup
    returns the not-found outcome naming the searched value, whose rendered
    message contains the value and differs from the message of a successful
    empty-string lookup. -/
lemma lookup_miss_core (md : List (String × Table))
    (k lc v rc : String) (t : Table)
    (hk : List.lookup k md = some t)
    (hlc : pyStrip lc ∈ t.cols) (hrc : pyStrip rc ∈ t.cols)
    (hnone : ∀ row ∈ t.rows, rowMatches t.cols (pyStrip lc) v row = false) :
    _lookup_master_data k lc v rc md = .valueNotFound v k (pyStrip lc) ∧
    render (.valueNotFound v k (pyStrip lc)) ≠ render (.found "") ∧
    v.data <:+: (render (.valueNotFound v k (pyStrip lc))).data := by
  have hfind : t.rows.find? (rowMatches t.cols (pyStrip lc) v) = none :=
    List.find?_eq_none.mpr (fun x hx => by simp [hnone x hx])
  exact ⟨by simp [_lookup_master_data, hk, hlc, hrc, hfind],
    render_valueNotFound_ne_found_empty v k (pyStrip lc),
    render_valueNotFound_contains_value v k (pyStrip lc)⟩

/-- C3: a missing table key yields the key-not-found outcome carrying the
    requested key and the available keys, before any column is consulted; a
    resolved key with a missing (trimmed) lookup column yields the
    column-not-found outcome for the lookup column regardless of the return
    column; only when the lookup column exists is the return column checked.
    The rendered messages name the missing key or column and every available
    key or column. -/
theorem C3_lookup_error_reporting_and_order (md : List (String × Table))
    (k lc v rc : String) :
    (List.lookup k md = none →
      _lookup_master_data k lc v rc md = .keyNotFound k (md.map Prod.fst)) ∧
    (∀ t, List.lookup k md = some t → pyStrip lc ∉ t.cols →
      _lookup_master_data k lc v rc md = .columnNotFound (pyStrip lc) k t.cols) ∧
    (∀ t, List.lookup k md = some t → pyStrip lc ∈ t.cols → pyStrip rc ∉ t.cols →
      _lookup_master_data k lc v rc md = .columnNotFound (pyStrip rc) k t.cols) ∧
    (∀ key avail, key.data <:+: (render (.keyNotFound key avail)).data ∧
      ∀ k2 ∈ avail, k2.data <:+: (render (.keyNotFound key avail)).data) ∧
    (∀ col key avail, col.data <:+: (render (.columnNotFound col key avail)).data ∧
      ∀ c2 ∈ avail, c2.data <:+: (render (.columnNotFound col key avail)).data) := by
  refine ⟨fun h => by simp [_lookup_master_data, h], ?_, ?_,
    fun key avail => render_keyNotFound_names key avail,
    fun col key avail => render_columnNotFound_names col key avail⟩
  · intro t ht hlc
    simp [_lookup_master_data, ht, hlc]
  · intro t ht hlc hrc
    simp [_lookup_master_data, ht, hlc, hrc]

/-- C3 witness: missing key, missing lookup column (even though the return
    column is also missing), and missing return column, on the fixture. -/
theorem C3_witness :
    _lookup_master_data "missing.xlsx" "Name" "x" "Code" exMd =
      LookupOutcome.keyNotFound "missing.xlsx" ["vendors.xlsx"] ∧
    _lookup_master_data "vendors.xlsx" "Nope" "x" "Alsonope" exMd =
      LookupOutcome.columnNotFound "Nope" "vendors.xlsx" ["Name", "Code"] ∧
    _lookup_master_data "vendors.xlsx" "Name" "x" "Nope" exMd =
      LookupOutcome.columnNotFound "Nope" "vendors.xlsx" ["Name", "Code"] := by
  refine ⟨?_, ?_, ?_⟩
  · exact ((C3_lookup_error_reporting_and_order exMd "missing.xlsx" "Name" "x" "Code").1
      (by decide)).trans (by decide)
  · exact (((C3_lookup_error_reporting_and_order exMd "vendors.xlsx" "Nope" "x" "Alsonope").2.1
      exVendors (by decide) (by decide))).trans (by decide)
  · exact (((C3_lookup_error_reporting_and_order exMd "vendors.xlsx" "Name" "x" "Nope").2.2.1
      exVendors (by decide) (by decide) (by decide))).trans (by decide)

/-- C9: on invalid JSON the output assembler returns the error message,
    produces no CSV and no record, and its result is distinguishable from
    every successful one; being a total function, it raises nothing. -/
theorem C9_invalid_json_error_outcome (e : String) :
    (_generate_output_csv (Except.error e)).1 = "Error generating CSV: " ++ e ∧
    (_generate_output_csv (Except.error e)).2.1 = none ∧
    (_generate_output_csv (Except.error e)).2.2 = none ∧
    ∀ record, _generate_output_csv (Except.error e) ≠
      _generate_output_csv (Except.ok record) := by
  refine ⟨rfl, rfl, rfl, fun record h => ?_⟩
  have h2 := congrArg (fun r => r.2.2) h
  simp [_generate_output_csv] at h2

/-- C9 witness: a concrete malformed-JSON exception text. -/
theorem C9_witness :
    (_generate_output_csv (Except.error "Expecting value")).2.1 = none ∧
    (_generate_output_csv (Except.error "Expecting value")).2.2 = none :=
  ⟨(C9_invalid_json_error_outcome "Expecting value").2.1,
    (C9_invalid_json_error_outcome "Expecting value").2.2.1⟩

/-- core of the first-match behaviour on the substring reading: when the key
    resolves and both trimmed columns exist, the lookup returns the text of
    the return column of the first matching row in table order (row i
    matches, all rows before it do not); and the result is the same on any
    collection whose table holds only the rows up to and including that
    first match followed by arbitrary other rows, so rows after the first
    match are never consulted. -/
lemma lookup_first_match_core (md : List (String × Table))
    (k lc v rc : String) (t : Table) (i : Nat) (hi : i < t.rows.length)
    (hk : List.lookup k md = some t)
    (hlc : pyStrip lc ∈ t.cols) (hrc : pyStrip rc ∈ t.cols)
    (hmatch : rowMatches t.cols (pyStrip lc) v (t.rows.get ⟨i, hi⟩) = true)
    (hbefore : ∀ j (hj : j < t.rows.length), j < i →
      rowMatches t.cols (pyStrip lc) v (t.rows.get ⟨j, hj⟩) = false) :
    _lookup_master_data k lc v rc md =
      .found (Value.toText (cellOf t.cols (t.rows.get ⟨i, hi⟩) (pyStrip rc))) ∧
    ∀ (md2 : List (String × Table)) (extra : List (List Value)),
      List.lookup k md2 = some ⟨t.cols, t.rows.take (i + 1) ++ extra⟩ →
      _lookup_master_data k lc v rc md2 =
        .found (Value.toText (cellOf t.cols (t.rows.get ⟨i, hi⟩) (pyStrip rc))) := by
  have hfind := find?_eq_get_of_first (rowMatches t.cols (pyStrip lc) v) t.rows i hi
    hmatch hbefore
  constructor
  · simp [_lookup_master_data, hk, hlc, hrc, hfind]
  · intro md2 extra hk2
    have htake : i < (t.rows.take (i + 1)).length := by
      rw [List.length_take]
      omega
    have hi2 : i < (t.rows.take (i + 1) ++ extra).length := by
      rw [List.length_append]
      omega
    have hget2 : (t.rows.take (i + 1) ++ extra).get ⟨i, hi2⟩ = t.rows.get ⟨i, hi⟩ := by
      simp only [List.get_eq_getElem]
      rw [List.getElem_append_left htake, List.getElem_take]
    have hfind2 := find?_eq_get_of_first (rowMatches t.cols (pyStrip lc) v)
      (t.rows.take (i + 1) ++ extra) i hi2 (by rw [hget2]; exact hmatch)
      (fun j hj hji => by
        have hjt : j < (t.rows.take (i + 1)).length := by
          rw [List.length_take]
          omega
        have hjr : j < t.rows.length := by
          rw [List.length_take] at hjt
          omega
        have hgj : (t.rows.take (i + 1) ++ extra).get ⟨j, hj⟩ = t.rows.get ⟨j, hjr⟩ := by
          simp only [List.get_eq_getElem]
          rw [List.getElem_append_left hjt, List.getElem_take]
        rw [hgj]
        exact hbefore j hjr hji)
    rw [hget2] at hfind2
    simp [_lookup_master_data, hk2, hlc, hrc, hfind2]

/-- C10: on a nonempty table whose trimmed columns contain both query
    columns, an empty lookup value always matches the first row, because the
    empty string is a substring of every cell's text; and the lookup value is
    used verbatim, not trimmed: a value padded with spaces fails against the
    fixture even though its trimmed form would match. -/
theorem C10_empty_value_matches_first_row (md : List (String × Table))
    (k lc rc : String) (t : Table) (r : List Value) (rest : List (List Value))
    (hk : List.lookup k md = some t) (hrows : t.rows = r :: rest)
    (hlc : pyStrip lc ∈ t.cols) (hrc : pyStrip rc ∈ t.cols) :
    _lookup_master_data k lc "" rc md =
      .found (Value.toText (cellOf t.cols r (pyStrip rc))) ∧
    _lookup_master_data "vendors.xlsx" "Name" " acme " "Code" exMd =
      LookupOutcome.valueNotFound " acme " "vendors.xlsx" "Name" ∧
    pyContainsCI "ACME Corp" (pyStrip " acme ") = true := by
  have hmatch : rowMatches t.cols (pyStrip lc) "" r = true := by
    simp [rowMatches, pyContainsCI, pyLower]
  have hfind : t.rows.find? (rowMatches t.cols (pyStrip lc) "") = some r := by
    rw [hrows, List.find?_cons, hmatch]
  refine ⟨by simp [_lookup_master_data, hk, hlc, hrc, hfind], by decide, by decide⟩

/-- C10 witness: empty lookup value on the fixture returns the first row's
    code. -/
theorem C10_witness :
    _lookup_master_data "vendors.xlsx" "Name" "" "Code" exMd =
      LookupOutcome.found "V1" := by
  have h := C10_empty_value_matches_first_row exMd "vendors.xlsx" "Name" "Code"
    exVendors [Value.text "Foo", Value.text "V1"]
    [[Value.text "ACME Corp", Value.text "V100"]]
    (by decide) (by decide) (by decide) (by decide)
  exact h.1.trans (by decide)

/- ------------------------------------------------------------------ -/
/- Frame behaviour of the two lookup variants (C7)                    -/
/- ------------------------------------------------------------------ -/

lemma updateFirst_self {md : List (String × Table)} {k : String} {t : Table}
    (hk : List.lookup k md = some t) : updateFirst md k t = md := by
  induction md with
  | nil => rfl
  | cons p rest ih =>
    rcases p with ⟨k2, b⟩
    rw [List.lookup] at hk
    rw [updateFirst]
    cases hb : (k == k2) with
    | true =>
      rw [hb] at hk
      simp only [Option.some.injEq] at hk
      simp [hb, hk]
    | false =>
      rw [hb] at hk
      simp [hb, ih hk]

/-- C7 counterexample: on a collection whose stored table still has an
    untrimmed header, app.py's lookup_master_data re-trims that header in
    place, so the collection after the call differs from the one before:
    the claim does not hold for every state of the collection. -/
theorem C7_counterexample :
    (lookup_master_data "f" "A" "" "A"
        [("f", ⟨[" A "], [[Value.text "x"]]⟩)]).2 ≠
      [("f", ⟨[" A "], [[Value.text "x"]]⟩)] := by decide

/-- C7 (amended): the lookup operation leaves the collection unchanged on
    every state in which the stored tables' column names are already trimmed
    (the invariant the loader establishes); app.py's variant only re-trims
    the resolved table's headers in place, which is then the identity, and
    invoice_Agent.py's variant returns only an outcome. -/
theorem C7_amended_lookup_preserves_trimmed_collection
    (md : List (String × Table)) (k lc v rc : String)
    (h : ∀ p ∈ md, List.map pyStrip (p.2).cols = (p.2).cols) :
    (lookup_master_data k lc v rc md).2 = md := by
  cases hk : List.lookup k md with
  | none =>
    unfold lookup_master_data
    rw [hk]
  | some t =>
    have hmem := lookup_some_mem hk
    have hstr : stripCols t = t := by
      have hcols := h (k, t) hmem
      unfold stripCols
      rw [hcols]
    unfold lookup_master_data
    rw [hk]
    dsimp only
    rw [hstr, updateFirst_self hk]
    split
    · split
      · split
        · rfl
        · rfl
      · rfl
    · rfl

/-- C7 witness: a lookup on the trimmed fixture leaves it unchanged. -/
theorem C7_witness :
    (lookup_master_data "vendors.xlsx" "Name" "acme" "Code" exMd).2 = exMd :=
  C7_amended_lookup_preserves_trimmed_collection exMd "vendors.xlsx" "Name" "acme"
    "Code" (by decide)

/- ------------------------------------------------------------------ -/
/- Idempotence of stripping and the loader invariant (C5)             -/
/- ------------------------------------------------------------------ -/

lemma dropWhile_idem (p : Char → Bool) (l : List Char) :
    (l.dropWhile p).dropWhile p = l.dropWhile p := by
  induction l with
  | nil => rfl
  | cons a tl ih =>
    rw [List.dropWhile_cons]
    split
    · exact ih
    · next hpa =>
      rw [List.dropWhile_cons]
      simp [hpa]

lemma dropWhile_eq_self_of_pre {p : Char → Bool} {r d : List Char}
    (hpre : r <+: d) (hd : d.dropWhile p = d) : r.dropWhile p = r := by
  cases r with
  | nil => rfl
  | cons a rs =>
    obtain ⟨tail, htail⟩ := hpre
    rw [← htail, List.cons_append, List.dropWhile_cons] at hd
    split at hd
    · have hlen : (List.dropWhile p (rs ++ tail)).length = (rs ++ tail).length + 1 := by
        rw [hd]
        rfl
      have hle : (List.dropWhile p (rs ++ tail)).length ≤ (rs ++ tail).length :=
        (List.dropWhile_suffix p).sublist.length_le
      omega
    · next hpa =>
      rw [List.dropWhile_cons]
      simp [hpa]

lemma pyStripData_idem (l : List Char) : pyStripData (pyStripData l) = pyStripData l := by
  unfold pyStripData
  have hDidem : (l.dropWhile Char.isWhitespace).dropWhile Char.isWhitespace =
      l.dropWhile Char.isWhitespace := dropWhile_idem _ l
  have hpre : (((l.dropWhile Char.isWhitespace).reverse.dropWhile
      Char.isWhitespace).reverse) <+: l.dropWhile Char.isWhitespace := by
    have h0 : (List.dropWhile Char.isWhitespace
        (l.dropWhile Char.isWhitespace).reverse).reverse <+:
        ((l.dropWhile Char.isWhitespace).reverse).reverse :=
      List.reverse_prefix.mpr (List.dropWhile_suffix _)
    simpa using h0
  have h1 := dropWhile_eq_self_of_pre hpre hDidem
  rw [h1, List.reverse_reverse]
  rw [dropWhile_idem]

lemma pyStrip_idem (s : String) : pyStrip (pyStrip s) = pyStrip s := by
  unfold pyStrip
  rw [show (String.mk (pyStripData s.data)).data = pyStripData s.data from rfl,
    pyStripData_idem]

lemma sourceTables_multi (name : String) (sheets : List (String × Table))
    (h : sheets.length ≠ 1) :
    sourceTables (name, .ok sheets) =
      sheets.map (fun p => (name ++ "_" ++ p.1, stripCols p.2)) := by
  match sheets with
  | [] => rfl
  | [x] => exact absurd (show [x].length = 1 from rfl) h
  | a :: b :: tl => rfl

lemma mem_load_is_stripped {sources : List (String × ParseResult)} {k : String}
    {t : Table} (h : (k, t) ∈ _load_master_data_from_bytes sources) :
    ∃ t0, t = stripCols t0 := by
  induction sources with
  | nil => simp [_load_master_data_from_bytes] at h
  | cons s rest ih =>
    rw [_load_master_data_from_bytes] at h
    rcases List.mem_append.mp h with h1 | h2
    · rcases s with ⟨name, pr⟩
      cases pr with
      | err m => simp [sourceTables] at h1
      | ok sheets =>
        rcases sheets with _ | ⟨⟨sn, t0⟩, _ | ⟨b, tl⟩⟩
        · simp [sourceTables] at h1
        · rw [show sourceTables (name, ParseResult.ok [(sn, t0)]) =
              [(name, stripCols t0)] from rfl] at h1
          have h1e := List.mem_singleton.mp h1
          exact ⟨t0, congrArg Prod.snd h1e⟩
        · rw [sourceTables_multi name ((sn, t0) :: b :: tl) (by simp)] at h1
          obtain ⟨p, hpmem, hpe⟩ := List.mem_map.mp h1
          exact ⟨p.2, (congrArg Prod.snd hpe).symm⟩
    · exact ih h2

/-- C5: every table stored by the loader has trimmed column names: its
    header list is the once-trimmed image of the raw sheet's headers, and
    trimming is idempotent so every stored header is a fixed point of
    trimming; as a consequence a sheet whose raw header is padded, loaded
    and then queried with the unpadded column name, resolves that column. -/
theorem C5_loaded_headers_trimmed (sources : List (String × ParseResult))
    (k : String) (t : Table)
    (h : (k, t) ∈ _load_master_data_from_bytes sources) :
    (∃ raw : List String, t.cols = raw.map pyStrip) ∧ (∀ c ∈ t.cols, pyStrip c = c) ∧
    _lookup_master_data "f.xlsx" "Tax Code" "" "Tax Code"
      (_load_master_data_from_bytes
        [("f.xlsx", ParseResult.ok [("S", ⟨[" Tax Code "], [[Value.text "V1"]]⟩)])]) =
      LookupOutcome.found "V1" := by
  obtain ⟨t0, rfl⟩ := mem_load_is_stripped h
  refine ⟨⟨t0.cols, rfl⟩, ?_, by decide⟩
  intro c hc
  simp only [stripCols] at hc
  obtain ⟨c0, hc0, rfl⟩ := List.mem_map.mp hc
  exact pyStrip_idem c0

/-- C5 witness: the loaded padded header is a fixed point of trimming. -/
theorem C5_witness : pyStrip "Tax Code" = "Tax Code" := by
  have h := C5_loaded_headers_trimmed
    [("f.xlsx", ParseResult.ok [("S", ⟨[" Tax Code "], [[Value.text "V1"]]⟩)])]
    "f.xlsx" ⟨["Tax Code"], [[Value.text "V1"]]⟩ (by decide)
  exact h.2.1 "Tax Code" (by decide)

/- ------------------------------------------------------------------ -/
/- Loader: skipping failures and key structure (C6, C4)               -/
/- ------------------------------------------------------------------ -/

/-- C6: the loader's output only depends on the parseable sources — a
    failing source contributes nothing and the rest are still processed —
    and the failure reports are exactly the failing sources with their
    reasons; the loader is a total function, so it never aborts. -/
theorem C6_skip_and_report_failures (sources : List (String × ParseResult)) :
    _load_master_data_from_bytes sources =
      _load_master_data_from_bytes (sources.filter isOkSource) ∧
    (∀ name e, (name, ParseResult.err e) ∈ sources →
      (name, e) ∈ load_errors sources) ∧
    (∀ name e, (name, e) ∈ load_errors sources →
      (name, ParseResult.err e) ∈ sources) := by
  refine ⟨?_, ?_, ?_⟩
  · induction sources with
    | nil => rfl
    | cons s rest ih =>
      rw [_load_master_data_from_bytes, List.filter]
      cases hok : isOkSource s with
      | true =>
        rw [_load_master_data_from_bytes, ih]
      | false =>
        rcases s with ⟨name, pr⟩
        cases pr with
        | ok sheets => simp [isOkSource] at hok
        | err e => simpa [sourceTables] using ih
  · intro name e hmem
    induction sources with
    | nil => simp at hmem
    | cons s rest ih =>
      rcases List.mem_cons.mp hmem with rfl | h2
      · rw [load_errors]
        exact List.mem_cons_self _ _
      · rcases s with ⟨name2, pr⟩
        cases pr with
        | ok sheets =>
          rw [load_errors]
          exact ih h2
        | err e2 =>
          rw [load_errors]
          exact List.mem_cons_of_mem _ (ih h2)
  · intro name e hmem
    induction sources with
    | nil => simp [load_errors] at hmem
    | cons s rest ih =>
      rcases s with ⟨name2, pr⟩
      cases pr with
      | ok sheets =>
        rw [load_errors] at hmem
        exact List.mem_cons_of_mem _ (ih hmem)
      | err e2 =>
        rw [load_errors] at hmem
        rcases List.mem_cons.mp hmem with h1 | h2
        · have h1e : name = name2 ∧ e = e2 := by
            constructor
            · exact congrArg Prod.fst h1
            · exact congrArg Prod.snd h1
          rw [h1e.1, h1e.2]
          exact List.mem_cons_self _ _
        · exact List.mem_cons_of_mem _ (ih h2)

/-- a loader input with one parse failure among good sources. -/
def exSources6 : List (String × ParseResult) :=
  [("a.xlsx", ParseResult.ok [("S1", ⟨["P"], []⟩)]),
   ("c.xlsx", ParseResult.err "corrupt"),
   ("b.xlsx", ParseResult.ok [("S1", ⟨["Q"], []⟩)])]

/-- C6 witness: the failing source is skipped and reported on a concrete
    input. -/
theorem C6_witness :
    _load_master_data_from_bytes exSources6 =
      _load_master_data_from_bytes (exSources6.filter isOkSource) ∧
    ("c.xlsx", "corrupt") ∈ load_errors exSources6 :=
  ⟨(C6_skip_and_report_failures exSources6).1,
    (C6_skip_and_report_failures exSources6).2.1 "c.xlsx" "corrupt" (by decide)⟩

lemma sourceTables_length (s : String × ParseResult) :
    (sourceTables s).length =
      (match s.2 with
       | ParseResult.ok sheets => if sheets.length = 1 then 1 else sheets.length
       | ParseResult.err _ => 0) := by
  rcases s with ⟨name, pr⟩
  cases pr with
  | err m => rfl
  | ok sheets =>
    rcases sheets with _ | ⟨a, _ | ⟨b, tl2⟩⟩
    · rfl
    · simp [sourceTables]
    · have hne : (a :: b :: tl2).length ≠ 1 := by simp
      rw [sourceTables_multi name _ hne]
      simp [hne]

lemma load_length (sources : List (String × ParseResult)) :
    (_load_master_data_from_bytes sources).length =
      numSingleSheet sources + numMultiSheets sources := by
  induction sources with
  | nil => rfl
  | cons s rest ih =>
    rw [_load_master_data_from_bytes, List.length_append, ih, sourceTables_length]
    rcases s with ⟨name, pr⟩
    cases pr with
    | err m =>
      simp [numSingleSheet, numMultiSheets]
    | ok sheets =>
      rw [numSingleSheet, numMultiSheets]
      by_cases h1 : sheets.length = 1
      · simp only [h1, if_pos]
        omega
      · simp only [h1, if_neg, ite_false]
        omega

lemma mem_load_of_mem_sourceTables {sources : List (String × ParseResult)}
    {s : String × ParseResult} (hs : s ∈ sources) {kt : String × Table}
    (h : kt ∈ sourceTables s) : kt ∈ _load_master_data_from_bytes sources := by
  induction sources with
  | nil => simp at hs
  | cons a rest ih =>
    rw [_load_master_data_from_bytes]
    rcases List.mem_cons.mp hs with rfl | hs2
    · exact List.mem_append.mpr (Or.inl h)
    · exact List.mem_append.mpr (Or.inr (ih hs2))

/-- C4: on an input of parseable sources whose resulting keys are pairwise
    distinct, the collection has numSingleSheet + numMultiSheets entries
    (one per single-sheet source, one per sheet of every other source); a
    single-sheet source is keyed by its name alone and resolves to its
    stripped sheet, each sheet of a multi-sheet source is keyed
    name_sheet and resolves to its own stripped sheet; and stripping
    headers never changes a sheet's rows, so each key maps to exactly the
    rows of its own sheet. -/
theorem C4_loader_key_structure (sources : List (String × ParseResult))
    (hok : ∀ s ∈ sources, isOkSource s = true)
    (hnodup : ((_load_master_data_from_bytes sources).map Prod.fst).Nodup) :
    (_load_master_data_from_bytes sources).length =
      numSingleSheet sources + numMultiSheets sources ∧
    (∀ name sn t, (name, ParseResult.ok [(sn, t)]) ∈ sources →
      List.lookup name (_load_master_data_from_bytes sources) =
        some (stripCols t)) ∧
    (∀ name sheets, (name, ParseResult.ok sheets) ∈ sources →
      sheets.length ≠ 1 → ∀ sn t, (sn, t) ∈ sheets →
        List.lookup (name ++ "_" ++ sn) (_load_master_data_from_bytes sources) =
          some (stripCols t)) ∧
    (∀ t0 : Table, (stripCols t0).rows = t0.rows) := by
  refine ⟨load_length sources, ?_, ?_, fun t0 => rfl⟩
  · intro name sn t hmem
    exact lookup_eq_of_mem_nodup
      (mem_load_of_mem_sourceTables hmem
        (by rw [show sourceTables (name, ParseResult.ok [(sn, t)]) =
              [(name, stripCols t)] from rfl]
            exact List.mem_singleton_self _)) hnodup
  · intro name sheets hmem hlen sn t hsheet
    refine lookup_eq_of_mem_nodup (mem_load_of_mem_sourceTables hmem ?_) hnodup
    rw [sourceTables_multi name sheets hlen]
    exact List.mem_map.mpr ⟨(sn, t), hsheet, rfl⟩

/-- a loader input with one single-sheet source and one two-sheet source. -/
def exSources4 : List (String × ParseResult) :=
  [("a.xlsx", ParseResult.ok [("S1", ⟨["P"], []⟩)]),
   ("b.xlsx", ParseResult.ok [("X", ⟨["A"], []⟩), ("Y", ⟨["B"], []⟩)])]

/-- C4 witness: one single-sheet and one two-sheet source give three keys,
    with the expected key forms resolving to their own sheets. -/
theorem C4_witness :
    (_load_master_data_from_bytes exSources4).length = 3 ∧
    List.lookup "a.xlsx" (_load_master_data_from_bytes exSources4) =
      some (stripCols ⟨["P"], []⟩) ∧
    List.lookup "b.xlsx_Y" (_load_master_data_from_bytes exSources4) =
      some (stripCols ⟨["B"], []⟩) := by
  have h := C4_loader_key_structure exSources4 (by decide) (by decide)
  exact ⟨h.1.trans (by decide),
    h.2.1 "a.xlsx" "S1" ⟨["P"], []⟩ (by decide),
    h.2.2.1 "b.xlsx" [("X", ⟨["A"], []⟩), ("Y", ⟨["B"], []⟩)] (by decide)
      (by decide) "Y" ⟨["B"], []⟩ (by decide)⟩

/- ------------------------------------------------------------------ -/
/- CSV round trip (C8)                                                -/
/- ------------------------------------------------------------------ -/

lemma takeWhile_append_all {p : Char → Bool} {l : List Char} (d : List Char)
    (h : ∀ x ∈ l, p x = true) : (l ++ d).takeWhile p = l ++ d.takeWhile p := by
  induction l with
  | nil => simp
  | cons a tl ih =>
    have ha := h a (List.mem_cons_self a tl)
    have ih2 := ih (fun x hx => h x (List.mem_cons_of_mem a hx))
    simp [List.takeWhile_cons, ha, ih2]

lemma dropWhile_append_all {p : Char → Bool} {l : List Char} (d : List Char)
    (h : ∀ x ∈ l, p x = true) : (l ++ d).dropWhile p = d.dropWhile p := by
  induction l with
  | nil => simp
  | cons a tl ih =>
    have ha := h a (List.mem_cons_self a tl)
    have ih2 := ih (fun x hx => h x (List.mem_cons_of_mem a hx))
    simp [List.dropWhile_cons, ha, ih2]

/-- the remainder after a written field: empty, or starting at a separator. -/
def SepStartP (d : List Char) : Prop :=
  ∀ x r, d = x :: r → (x = ',' ∨ x = '\n')

lemma sep_take_drop {d : List Char} (hd : SepStartP d) :
    d.takeWhile notCellEnd = [] ∧ d.dropWhile notCellEnd = d := by
  cases d with
  | nil => simp
  | cons x r =>
    have hx := hd x r rfl
    have hnce : notCellEnd x = false := by
      rcases hx with h1 | h1 <;> simp [notCellEnd, h1]
    simp [List.takeWhile_cons, List.dropWhile_cons, hnce]

lemma parseQuoted_escQuotes (c : List Char) {d : List Char}
    (hd : ∀ x r, d = x :: r → x ≠ '"') :
    parseQuoted (escQuotes c ++ ('"' :: d)) = some (c, d) := by
  induction c with
  | nil =>
    cases d with
    | nil => simp [escQuotes, parseQuoted]
    | cons x r =>
      have hx := hd x r rfl
      simp [escQuotes, parseQuoted, hx]
  | cons a c2 ih =>
    by_cases ha : a = '"'
    · subst ha
      simp [escQuotes, parseQuoted, ih]
    · rw [show escQuotes (a :: c2) = a :: escQuotes c2 by simp [escQuotes, ha]]
      rw [List.cons_append, parseQuoted.eq_def]
      dsimp only
      rw [if_neg ha, ih]

lemma parseCellAt_csvField (c : List Char) {d : List Char} (hd : SepStartP d) :
    parseCellAt (csvFieldData c ++ d) = some (c, d) := by
  have hdq : ∀ x r, d = x :: r → x ≠ '"' := by
    intro x r hxr
    rcases hd x r hxr with h1 | h1 <;> simp [h1]
  rw [csvFieldData]
  split
  · rw [List.cons_append, List.append_assoc, List.singleton_append, parseCellAt]
    rw [if_pos rfl]
    exact parseQuoted_escQuotes c hdq
  · next hnq =>
    have hallf : ∀ x ∈ c, csvNeedsQuote x = false := by
      intro x hx
      by_contra hcon
      have hxt : csvNeedsQuote x = true := by
        revert hcon
        cases csvNeedsQuote x <;> simp
      exact hnq (List.any_eq_true.mpr ⟨x, hx, hxt⟩)
    have hall : ∀ x ∈ c, notCellEnd x = true ∧ x ≠ '"' := by
      intro x hx
      have hf := hallf x hx
      have h1 : x ≠ ',' := by intro he; subst he; simp [csvNeedsQuote] at hf
      have h2 : x ≠ '"' := by intro he; subst he; simp [csvNeedsQuote] at hf
      have h3 : x ≠ '\n' := by intro he; subst he; simp [csvNeedsQuote] at hf
      exact ⟨by simp [notCellEnd, h1, h3], h2⟩
    cases c with
    | nil =>
      rw [List.nil_append]
      cases d with
      | nil => rfl
      | cons x r =>
        have hxq : x ≠ '"' := hdq x r rfl
        rw [parseCellAt, if_neg hxq]
        have hsd := sep_take_drop hd
        rw [hsd.1, hsd.2]
    | cons a c2 =>
      have haq : a ≠ '"' := (hall a (List.mem_cons_self a c2)).2
      rw [List.cons_append, parseCellAt, if_neg haq, ← List.cons_append]
      have htk := takeWhile_append_all (l := a :: c2) d (fun x hx => (hall x hx).1)
      have hdr := dropWhile_append_all (l := a :: c2) d (fun x hx => (hall x hx).1)
      have hsd := sep_take_drop hd
      rw [htk, hdr, hsd.1, hsd.2, List.append_nil]

lemma parseLineFuel_csvLine (cells : List (List Char)) (rest : List Char)
    (hc : cells ≠ []) :
    ∀ fuel, cells.length ≤ fuel →
      parseLineFuel fuel (csvLineData cells ++ '\n' :: rest) = some (cells, rest) := by
  induction cells with
  | nil => exact absurd rfl hc
  | cons c cs ih =>
    intro fuel hfuel
    cases fuel with
    | zero => simp at hfuel
    | succ f =>
      cases cs with
      | nil =>
        rw [show csvLineData [c] = csvFieldData c from rfl, parseLineFuel]
        have hcell := parseCellAt_csvField c
          (d := '\n' :: rest) (fun x r hxr => Or.inr (by cases hxr; rfl))
        rw [hcell]
        simp
      | cons c2 cs2 =>
        rw [show csvLineData (c :: c2 :: cs2) =
            csvFieldData c ++ ',' :: csvLineData (c2 :: cs2) from rfl]
        rw [parseLineFuel, List.append_assoc, List.cons_append]
        have hcell := parseCellAt_csvField c
          (d := ',' :: (csvLineData (c2 :: cs2) ++ '\n' :: rest))
          (fun x r hxr => Or.inl (by cases hxr; rfl))
        rw [hcell]
        have hrec := ih (by simp) f
          (by simp only [List.length_cons] at hfuel ⊢; omega)
        simp [hrec]

lemma csvLineData_length_ge (cells : List (List Char)) :
    cells.length ≤ (csvLineData cells).length + 1 := by
  induction cells with
  | nil => simp
  | cons c cs ih =>
    cases cs with
    | nil => simp [csvLineData]
    | cons c2 cs2 =>
      rw [show csvLineData (c :: c2 :: cs2) =
          csvFieldData c ++ ',' :: csvLineData (c2 :: cs2) from rfl]
      simp only [List.length_append, List.length_cons] at ih ⊢
      omega

lemma map_mk_pair (record : List (String × String)) :
    record.map (fun a => (String.mk a.1.data, String.mk a.2.data)) = record := by
  induction record with
  | nil => rfl
  | cons p rest ih =>
    rw [List.map_cons, ih]

/-- C8: on a decoded nonempty flat mapping, the output assembler produces
    the CSV artifact made of exactly one header line holding the keys in
    mapping order and one data line holding the values, and parsing that
    CSV back yields the original mapping. -/
theorem C8_csv_round_trip (record : List (String × String)) (h : record ≠ []) :
    (_generate_output_csv (Except.ok record)).2.1 = some (toCsvNoIndex record) ∧
    toCsvNoIndex record = String.mk
      (csvLineData (record.map (fun p => p.1.data)) ++
        '\n' :: (csvLineData (record.map (fun p => p.2.data)) ++ ['\n'])) ∧
    parseCsvRecord (toCsvNoIndex record) = some record := by
  refine ⟨rfl, rfl, ?_⟩
  have hkne : record.map (fun p : String × String => p.1.data) ≠ [] := by
    simpa using h
  have hvne : record.map (fun p : String × String => p.2.data) ≠ [] := by
    simpa using h
  have hq : (toCsvNoIndex record).length =
      (csvLineData (record.map (fun p => p.1.data))).length + 1 +
      ((csvLineData (record.map (fun p => p.2.data))).length + 1) := by
    show (toCsvNoIndex record).data.length = _
    rw [show (toCsvNoIndex record).data =
        csvLineData (record.map (fun p => p.1.data)) ++
          '\n' :: (csvLineData (record.map (fun p => p.2.data)) ++ ['\n']) from rfl]
    simp only [List.length_append, List.length_cons, List.length_nil]
    omega
  have hgk := csvLineData_length_ge (record.map (fun p : String × String => p.1.data))
  have hgv := csvLineData_length_ge (record.map (fun p : String × String => p.2.data))
  have h1 := parseLineFuel_csvLine (record.map (fun p => p.1.data))
    (csvLineData (record.map (fun p => p.2.data)) ++ ['\n']) hkne
    ((toCsvNoIndex record).length + 1) (by simp only [List.length_map] at hgk ⊢; omega)
  have h2 := parseLineFuel_csvLine (record.map (fun p => p.2.data)) [] hvne
    ((toCsvNoIndex record).length + 1) (by simp only [List.length_map] at hgv ⊢; omega)
  unfold parseCsvRecord
  rw [show (toCsvNoIndex record).data =
      csvLineData (record.map (fun p => p.1.data)) ++
        '\n' :: (csvLineData (record.map (fun p => p.2.data)) ++ ['\n']) from rfl]
  rw [h1]
  dsimp only
  rw [h2]
  dsimp only
  rw [if_pos ⟨rfl, by simp⟩]
  rw [List.map_map, List.map_map, List.zip_map']
  exact congrArg some (map_mk_pair record)

/-- C8 witness: the spec's example mapping round-trips through the CSV. -/
theorem C8_witness :
    parseCsvRecord (toCsvNoIndex [("PO Number", "PO123"), ("Vendor", "V100")]) =
      some [("PO Number", "PO123"), ("Vendor", "V100")] :=
  (C8_csv_round_trip [("PO Number", "PO123"), ("Vendor", "V100")]
    (by decide)).2.2

/-- C8 counterexample: on the empty mapping the claim fails: the assembler
    emits a bare pair of newlines, and parsing that back yields a one-field
    record with an empty header, not the empty mapping. -/
theorem C8_counterexample :
    parseCsvRecord (toCsvNoIndex []) ≠ some ([] : List (String × String)) := by
  decide

/- ------------------------------------------------------------------ -/
/- Regex boundary: agreement on neutral values and the two failures   -/
/- ------------------------------------------------------------------ -/

lemma dotLitMatchHere_no_dot :
    ∀ (pat text : List Char), '.' ∉ pat →
      dotLitMatchHere pat text =
        decide (pat.map Char.toLower <+: text.map Char.toLower) := by
  intro pat
  induction pat with
  | nil =>
    intro text hp
    simp [dotLitMatchHere]
  | cons p ps ih =>
    intro text hp
    have hpd : p ≠ '.' := fun he => hp (he ▸ List.mem_cons_self p ps)
    have hps : '.' ∉ ps := fun hm => hp (List.mem_cons_of_mem p hm)
    cases text with
    | nil => simp [dotLitMatchHere]
    | cons c cs =>
      rw [show dotLitMatchHere (p :: ps) (c :: cs) =
          ((if p = '.' then decide (c ≠ '\n') else p.toLower == c.toLower) &&
            dotLitMatchHere ps cs) from rfl]
      rw [if_neg hpd, ih cs hps, List.map_cons, List.map_cons]
      by_cases hpc : p.toLower = c.toLower
      · simp [hpc, List.cons_prefix_cons]
      · simp [hpc, List.cons_prefix_cons]

lemma dotLitSearch_eq_substr :
    ∀ (pat text : List Char), '.' ∉ pat →
      dotLitSearch pat text =
        decide (pat.map Char.toLower <:+: text.map Char.toLower) := by
  intro pat text hp
  induction text with
  | nil =>
    rw [show dotLitSearch pat [] = dotLitMatchHere pat [] from rfl,
      dotLitMatchHere_no_dot pat [] hp]
    simp [List.prefix_nil, List.infix_nil]
  | cons c cs ih =>
    rw [show dotLitSearch pat (c :: cs) =
        (dotLitMatchHere pat (c :: cs) || dotLitSearch pat cs) from rfl,
      dotLitMatchHere_no_dot pat (c :: cs) hp, ih, List.map_cons]
    rw [← Bool.decide_or]
    exact decide_eq_decide.mpr List.infix_cons_iff.symm

lemma reEngineFragment_neutralOK : EngineNeutralOK reEngineFragment := by
  intro p hp
  have hne : p ≠ "(" := by
    intro he
    subst he
    exact absurd hp (by decide)
  refine ⟨fun text => dotLitSearch p.data text.data,
    by rw [reEngineFragment, if_neg hne], ?_⟩
  intro text
  have hdot : '.' ∉ p.data := by
    intro hd
    have hany : p.data.any reMeta = true :=
      List.any_eq_true.mpr ⟨'.', hd, by decide⟩
    rw [pyRegexNeutral, hany] at hp
    exact absurd hp (by decide)
  show dotLitSearch p.data text.data = pyContainsCI text p
  rw [dotLitSearch_eq_substr p.data text.data hdot]
  rfl

lemma lookup_re_agrees_on_neutral (engine : String → ReCompiled)
    (heng : EngineNeutralOK engine) (k lc v rc : String)
    (hv : pyRegexNeutral v = true) (md : List (String × Table)) :
    _lookup_master_data_re engine k lc v rc md =
      LookupOutcomeRe.res (_lookup_master_data k lc v rc md) := by
  obtain ⟨f, hf, hfeq⟩ := heng v hv
  cases hk : List.lookup k md with
  | none => simp [_lookup_master_data_re, _lookup_master_data, hk]
  | some t =>
    have hpred : (fun row => f (Value.toText (cellOf t.cols row (pyStrip lc)))) =
        rowMatches t.cols (pyStrip lc) v := by
      funext row
      rw [hfeq, rowMatches]
    unfold _lookup_master_data_re _lookup_master_data
    rw [hk]
    dsimp only
    rw [hf]
    by_cases hlc : pyStrip lc ∈ t.cols
    · by_cases hrc : pyStrip rc ∈ t.cols
      · rw [if_pos hlc, if_pos hlc, if_pos hrc, if_pos hrc]
        dsimp only
        rw [hpred]
        cases t.rows.find? (rowMatches t.cols (pyStrip lc) v) <;> rfl
      · rw [if_pos hlc, if_pos hlc, if_neg hrc, if_neg hrc]
    · rw [if_neg hlc, if_neg hlc]

/-- C1 (amended): for every regex engine with the Python re property that a
    metacharacter-free pattern searches as literal case-insensitive
    substring containment, and every lookup value free of regex
    metacharacters, a lookup whose key resolves to a table containing both
    trimmed columns returns the return-column text of the first row, in
    table order, whose lookup-column text contains the value
    case-insensitively (row i matches, all rows before it do not); and rows
    after the first match are never consulted: the result is unchanged on
    any collection whose table holds only the rows up to and including the
    first match followed by arbitrary other rows. -/
theorem C1_first_match_on_neutral_values (engine : String → ReCompiled)
    (heng : EngineNeutralOK engine) (md : List (String × Table))
    (k lc v rc : String) (t : Table) (i : Nat) (hi : i < t.rows.length)
    (hv : pyRegexNeutral v = true)
    (hk : List.lookup k md = some t)
    (hlc : pyStrip lc ∈ t.cols) (hrc : pyStrip rc ∈ t.cols)
    (hmatch : rowMatches t.cols (pyStrip lc) v (t.rows.get ⟨i, hi⟩) = true)
    (hbefore : ∀ j (hj : j < t.rows.length), j < i →
      rowMatches t.cols (pyStrip lc) v (t.rows.get ⟨j, hj⟩) = false) :
    _lookup_master_data_re engine k lc v rc md =
      LookupOutcomeRe.res
        (.found (Value.toText (cellOf t.cols (t.rows.get ⟨i, hi⟩) (pyStrip rc)))) ∧
    ∀ (md2 : List (String × Table)) (extra : List (List Value)),
      List.lookup k md2 = some ⟨t.cols, t.rows.take (i + 1) ++ extra⟩ →
      _lookup_master_data_re engine k lc v rc md2 =
        LookupOutcomeRe.res
          (.found (Value.toText (cellOf t.cols (t.rows.get ⟨i, hi⟩) (pyStrip rc)))) := by
  have hcore := lookup_first_match_core md k lc v rc t i hi hk hlc hrc hmatch hbefore
  constructor
  · rw [lookup_re_agrees_on_neutral engine heng k lc v rc hv md, hcore.1]
  · intro md2 extra hk2
    rw [lookup_re_agrees_on_neutral engine heng k lc v rc hv md2, hcore.2 md2 extra hk2]

/-- C1 witness: the spec's example, acme (metacharacter-free) matching row 2
    (index 1) of the vendors table after a non-matching first row, under the
    fragment engine. -/
theorem C1_witness :
    _lookup_master_data_re reEngineFragment "vendors.xlsx" "Name" "acme" "Code" exMd =
      LookupOutcomeRe.res (LookupOutcome.found "V100") := by
  have h := C1_first_match_on_neutral_values reEngineFragment
    reEngineFragment_neutralOK exMd "vendors.xlsx" "Name" "acme" "Code" exVendors 1
    (by decide) (by decide) (by decide) (by decide) (by decide) (by decide)
    (fun j hj hji => by
      have hj0 : j = 0 := by omega
      subst hj0
      have hg : exVendors.rows.get ⟨0, hj⟩ = [Value.text "Foo", Value.text "V1"] := rfl
      rw [hg]
      decide)
  exact h.1.trans (by decide)

/-- a table whose first row regex-matches the pattern x.z without containing
    it as a substring, while the second row contains it literally. -/
def exReMd : List (String × Table) :=
  [("t.xlsx", ⟨["A", "B"],
    [[Value.text "xaz", Value.text "R0"], [Value.text "x.z", Value.text "R1"]]⟩)]

/-- C1 counterexample: at lookup value x.z the source's regex search (dot is
    a wildcard) matches the first row, whose text does not contain x.z as a
    substring — the second row is the first substring containment — so the
    code returns R0 where the claim as stated requires R1: the claim fails
    at this input. -/
theorem C1_counterexample :
    _lookup_master_data_re reEngineFragment "t.xlsx" "A" "x.z" "B" exReMd =
      LookupOutcomeRe.res (LookupOutcome.found "R0") ∧
    rowMatches ["A", "B"] "A" "x.z" [Value.text "xaz", Value.text "R0"] = false ∧
    rowMatches ["A", "B"] "A" "x.z" [Value.text "x.z", Value.text "R1"] = true ∧
    LookupOutcomeRe.res (LookupOutcome.found "R0") ≠
      LookupOutcomeRe.res (LookupOutcome.found "R1") := by
  decide

/-- C2 (amended): for every engine with the Python re property on
    metacharacter-free patterns and every such lookup value, when the key
    and both trimmed columns resolve and no row's lookup-column text
    contains the value case-insensitively, the lookup returns the not-found
    outcome naming the searched value, whose rendered message contains the
    value and differs from the message of a successful empty-string lookup;
    the embedded operation is total, so nothing is raised. -/
theorem C2_miss_reported_on_neutral_values (engine : String → ReCompiled)
    (heng : EngineNeutralOK engine) (md : List (String × Table))
    (k lc v rc : String) (t : Table)
    (hv : pyRegexNeutral v = true)
    (hk : List.lookup k md = some t)
    (hlc : pyStrip lc ∈ t.cols) (hrc : pyStrip rc ∈ t.cols)
    (hnone : ∀ row ∈ t.rows, rowMatches t.cols (pyStrip lc) v row = false) :
    _lookup_master_data_re engine k lc v rc md =
      LookupOutcomeRe.res (.valueNotFound v k (pyStrip lc)) ∧
    render (.valueNotFound v k (pyStrip lc)) ≠ render (.found "") ∧
    v.data <:+: (render (.valueNotFound v k (pyStrip lc))).data := by
  have hcore := lookup_miss_core md k lc v rc t hk hlc hrc hnone
  exact ⟨by rw [lookup_re_agrees_on_neutral engine heng k lc v rc hv md, hcore.1],
    hcore.2.1, hcore.2.2⟩

/-- C2 witness: the spec's example, metacharacter-free value zzz with no
    matching row, under the fragment engine. -/
theorem C2_witness :
    _lookup_master_data_re reEngineFragment "vendors.xlsx" "Name" "zzz" "Code" exMd =
      LookupOutcomeRe.res (LookupOutcome.valueNotFound "zzz" "vendors.xlsx" "Name") := by
  have h := C2_miss_reported_on_neutral_values reEngineFragment
    reEngineFragment_neutralOK exMd "vendors.xlsx" "Name" "zzz" "Code" exVendors
    (by decide) (by decide) (by decide) (by decide) (by decide)
  exact h.1.trans (by decide)

/-- C2 counterexample: the lookup value consisting of a lone open
    parenthesis is an invalid regular expression; with a valid key and
    columns and no row containing it as a substring, the code's str.contains
    raises re.error, caught into the error outcome of the except clause —
    not the value-not-found outcome naming the searched value that the claim
    as stated requires at this input. -/
theorem C2_counterexample :
    _lookup_master_data_re reEngineFragment "vendors.xlsx" "Name" "(" "Code" exMd =
      LookupOutcomeRe.caughtError "vendors.xlsx"
        "missing ), unterminated subpattern at position 0" ∧
    rowMatches exVendors.cols "Name" "(" [Value.text "Foo", Value.text "V1"] = false ∧
    rowMatches exVendors.cols "Name" "(" [Value.text "ACME Corp", Value.text "V100"] = false ∧
    LookupOutcomeRe.caughtError "vendors.xlsx"
        "missing ), unterminated subpattern at position 0" ≠
      LookupOutcomeRe.res (LookupOutcome.valueNotFound "(" "vendors.xlsx" "Name") := by
  decide
